import Mathlib

/-!
# Verification of `jwave/acoustics/time_harmonic.py`

Shallow embedding of the time-harmonic acoustics module of the `jwave`
repository, and proofs about it.

The module has three entry points:

* `helmholtz_solver`  (lines 83-134 of `time_harmonic.py`): scales the source,
  computes operator parameters when they are not supplied, and delegates the
  linear solve to a Krylov method (`gmres` or `bicgstab`).
* `helmholtz_solver_verbose` (lines 137-186): a driver that normalizes the
  source and iterates single GMRES micro-steps in a `while` loop.
* `rayleigh_integral` (lines 15-80): quadrature of the Rayleigh integral of
  the second kind, whose dipole kernel is obtained by forward-mode automatic
  differentiation (`jax.jvp`) of the Green's-function kernel.

Modelling choices:

* Array samples are complex numbers with exact rational components (`Cx`),
  extended with an absorbing invalid value (`CxN := Option Cx`, `none`
  standing for the IEEE non-finite results such as NaN).  Every arithmetic
  operation propagates `none`, and division by a zero scalar produces `none`
  (the reachable case in the code is `0 / 0`, which is NaN in IEEE
  arithmetic).  This makes the unguarded normalization of
  `helmholtz_solver_verbose` observable in the model.
* The external collaborators - the discretized Helmholtz operator
  `helmholtz`, its parameter initializer `helmholtz.default_params` (both
  live in `jwave/acoustics/operators.py`, outside the given sources), the
  `jax.scipy.sparse.linalg` solvers `gmres` / `bicgstab` and
  `jnp.linalg.norm` - are parameters of the embedding, collected in the
  structure `Collab`.
* The Rayleigh integral works over genuine real/complex numbers (`ℝ`, `ℂ`)
  because its kernel is transcendental; `jax.jvp` is embedded as dual-number
  (primal, tangent) evaluation of exactly the primitives appearing in
  `exp_term`, with the standard forward-mode derivative rule for each
  primitive.
-/

/-- A complex number with exact rational components (one finite array
sample). -/
@[ext]
structure Cx where
  re : ℚ
  im : ℚ
deriving DecidableEq

/-- An array sample: either a finite complex value or the invalid value
`none` (modelling IEEE NaN/non-finite results, which absorb through
arithmetic). -/
abbrev CxN := Option Cx

namespace Cx

/-- Complex multiplication on finite samples. -/
def mul (a b : Cx) : Cx := ⟨a.re * b.re - a.im * b.im, a.re * b.im + a.im * b.re⟩

theorem mul_comm (a b : Cx) : a.mul b = b.mul a := by
  ext <;> simp [mul] <;> ring

theorem mul_left_comm (a b c : Cx) : a.mul (b.mul c) = b.mul (a.mul c) := by
  ext <;> simp [mul] <;> ring

end Cx

namespace CxN

/-- Sample multiplication, absorbing invalid values. -/
def mul (a b : CxN) : CxN :=
  match a, b with
  | some x, some y => some (x.mul y)
  | _, _ => none

/-- Multiplication of a sample by a finite real scalar `q` (e.g. the literal
`2`, or `0` in `source * 0`).  An invalid sample stays invalid. -/
def mulq (a : CxN) (q : ℚ) : CxN := a.map fun z => ⟨z.re * q, z.im * q⟩

/-- Multiplication of a sample by the finite complex constant `c`
(used for `-1j * omega * out`). -/
def mulc (c : Cx) (a : CxN) : CxN := a.map fun z => c.mul z

/-- Division of a sample by a real scalar.  Division by zero produces the
invalid value (the case the code can reach is `0 / 0`, IEEE NaN). -/
def divq (a : CxN) (q : ℚ) : CxN :=
  if q = 0 then none else a.map fun z => ⟨z.re / q, z.im / q⟩

/-- Sample subtraction, absorbing invalid values. -/
def sub (a b : CxN) : CxN :=
  match a, b with
  | some x, some y => some ⟨x.re - y.re, x.im - y.im⟩
  | _, _ => none

end CxN

/-- Domain metadata of an `OnGrid` field: the grid spacing along the first
axis (`domain.dx[0]` in the code). -/
@[ext]
structure Grid where
  dx0 : ℚ
deriving DecidableEq

/-- An `OnGrid` discretized field: its domain plus the flattened list of its
samples (`field.params` / `field.on_grid` in the code). -/
@[ext]
structure OnGrid where
  domain : Grid
  values : List CxN
deriving DecidableEq

namespace OnGrid

/-- `field * q` for a real scalar `q`: elementwise. -/
def mulq (f : OnGrid) (q : ℚ) : OnGrid := ⟨f.domain, f.values.map (CxN.mulq · q)⟩

/-- `field / q` for a real scalar `q`: elementwise. -/
def divq (f : OnGrid) (q : ℚ) : OnGrid := ⟨f.domain, f.values.map (CxN.divq · q)⟩

/-- `c * field` for a finite complex constant `c`: elementwise. -/
def mulc (c : Cx) (f : OnGrid) : OnGrid := ⟨f.domain, f.values.map (CxN.mulc c)⟩

/-- `field / m` where `m` is a computed real scalar that may itself be
invalid (`none`).  Division by an invalid scalar or by zero yields invalid
samples. -/
def divo (f : OnGrid) (m : Option ℚ) : OnGrid :=
  match m with
  | none => ⟨f.domain, f.values.map fun _ => none⟩
  | some q => f.divq q

/-- `field * m` where `m` is a computed real scalar that may be invalid. -/
def mulo (f : OnGrid) (m : Option ℚ) : OnGrid :=
  match m with
  | none => ⟨f.domain, f.values.map fun _ => none⟩
  | some q => f.mulq q

/-- Elementwise field subtraction (both fields share a domain). -/
def sub (a b : OnGrid) : OnGrid := ⟨a.domain, List.zipWith CxN.sub a.values b.values⟩

end OnGrid

/-- The all-zero field on domain `dom` with `n` samples. -/
def zeroField (dom : Grid) (n : ℕ) : OnGrid := ⟨dom, List.replicate n (some ⟨0, 0⟩)⟩

/-- The sound speed of a `Medium`: either a scalar constant or a spatially
varying field of (real) samples. -/
inductive SoundSpeed where
  | scalar (c : ℚ)
  | field (vals : List ℚ)
deriving DecidableEq

/-- The part of `jwave.geometry.Medium` that `time_harmonic.py` reads: its
sound-speed quantity. -/
structure Medium where
  sound_speed : SoundSpeed
deriving DecidableEq

/-- `jnp.amin` over the samples of a (nonempty) array. -/
def amin : List ℚ → ℚ
  | [] => 0
  | h :: t => t.foldl min h

/-- Lines 107-110 / 163-166: the minimum sound speed of the medium - reduced
with `jnp.amin` over the field samples when the sound speed is a `Field`,
taken directly (as `jnp.amin` of a scalar) otherwise. -/
def minSoundSpeed (medium : Medium) : ℚ :=
  match medium.sound_speed with
  | .field v => amin v
  | .scalar c => c

/-- The keyword arguments read by the two solvers; `none` means the key is
absent from `kwargs` and the default applies. -/
structure Kwargs where
  tol : Option ℚ
  restart : Option ℕ
  maxiter : Option ℕ
  solve_method : Option String
deriving DecidableEq

/-- An empty `kwargs` dictionary. -/
def kwNone : Kwargs := ⟨none, none, none, none⟩

/-- The external collaborators of `time_harmonic.py`, over an abstract type
`P` of operator parameters:

* `helmholtz u medium omega p` - the discretized Helmholtz operator from
  `jwave/acoustics/operators.py` applied with precomputed parameters `p`;
* `dp dom medium omega` - the core of `helmholtz.default_params` (see
  `default_params` below);
* `gmres A b x0 tol restart maxiter solve_method` - the solution component
  (`[0]`) of `jax.scipy.sparse.linalg.gmres`;
* `bicgstab A b x0 tol maxiter` - the solution component of
  `jax.scipy.sparse.linalg.bicgstab`;
* `norm l` - `jnp.linalg.norm` of a sample list, a real scalar that is
  invalid (`none`) on invalid input. -/
structure Collab (P : Type) where
  helmholtz : OnGrid → Medium → ℚ → P → OnGrid
  dp : Grid → Medium → ℚ → P
  gmres : (OnGrid → OnGrid) → OnGrid → OnGrid → ℚ → ℕ → ℕ → String → OnGrid
  bicgstab : (OnGrid → OnGrid) → OnGrid → OnGrid → ℚ → ℕ → OnGrid
  norm : List CxN → Option ℚ

/-- Modelled from the spec: `helmholtz.default_params` lives in
`jwave/acoustics/operators.py`, which is not among the given sources.  Per
the spec's data model, operator parameters "depend only on `(medium, angular
frequency, domain)`, not on the field being solved for"; accordingly the
model reads only the domain of the field argument. -/
def default_params {P : Type} (E : Collab P) (source : OnGrid) (medium : Medium)
    (omega : ℚ) : P :=
  E.dp source.domain medium omega

/-- `jax.checkpoint`: a rematerialization wrapper for reverse-mode
differentiation; on values it is the identity. -/
def checkpointF (f : OnGrid → OnGrid) : OnGrid → OnGrid := f

/-- Lines 83-134: `helmholtz_solver`.  Returns `none` exactly when `method`
names neither Krylov variant (the Python code would then read the unbound
local `out`). -/
def helmholtz_solver {P : Type} (E : Collab P) (medium : Medium) (omega : ℚ)
    (source : OnGrid) (guess : Option OnGrid) (method : String)
    (checkpoint : Bool) (params : Option P) (kw : Kwargs) : Option OnGrid :=
  let min_sos := minSoundSpeed medium
  let source := (source.mulq 2).divq (source.domain.dx0 * min_sos)
  let params : P :=
    match params with
    | none => default_params E source medium omega
    | some p => p
  let helm_func := fun u => E.helmholtz u medium omega params
  let helm_func := if checkpoint then checkpointF helm_func else helm_func
  let guess :=
    match guess with
    | none => source.mulq 0
    | some g => g
  let tol := kw.tol.getD (1 / 1000)
  let restart := kw.restart.getD 10
  let maxiter := kw.maxiter.getD 1000
  let solve_method := kw.solve_method.getD "batched"
  if method = "gmres" then
    some (OnGrid.mulc ⟨0, -omega⟩
      (E.gmres helm_func source guess tol restart maxiter solve_method))
  else if method = "bicgstab" then
    some (OnGrid.mulc ⟨0, -omega⟩ (E.bicgstab helm_func source guess tol maxiter))
  else
    none

/-- `res > tol` where `res` is a computed (possibly invalid) norm: an IEEE
comparison against NaN is false, so an invalid residual fails the test. -/
def gtO (res : Option ℚ) (tol : ℚ) : Bool :=
  match res with
  | none => false
  | some r => decide (tol < r)

/-- Lines 175-184: the `while` loop of `helmholtz_solver_verbose`.  `step`
performs one micro-step (one `helmholtz_solver` call with `maxiter = 1`,
`tol = 0`, followed by the residual-norm computation); the loop state is the
current guess, the residual magnitude and the iteration counter.  The
per-iteration `print` is a side effect outside the value model. -/
def verboseLoop (tol : ℚ) (maxiter : ℕ) (step : OnGrid → OnGrid × Option ℚ)
    (guess : OnGrid) (res : Option ℚ) (iterations : ℕ) : OnGrid × Option ℚ × ℕ :=
  if h : gtO res tol ∧ iterations < maxiter then
    let next := step guess
    verboseLoop tol maxiter step next.1 next.2 (iterations + 1)
  else
    (guess, res, iterations)
termination_by maxiter - iterations
decreasing_by
  simp_wf
  omega

/-- Lines 137-186: `helmholtz_solver_verbose`. -/
def helmholtz_solver_verbose {P : Type} (E : Collab P) (medium : Medium)
    (omega : ℚ) (source : OnGrid) (guess : Option OnGrid) (params : Option P)
    (kw : Kwargs) : OnGrid :=
  let src_magn := E.norm source.values
  let source := source.divo src_magn
  let tol := kw.tol.getD (1 / 1000)
  let residual_magnitude :=
    E.norm (E.helmholtz source medium omega (default_params E source medium omega)).values
  let maxiter := kw.maxiter.getD 1000
  let params : P :=
    match params with
    | none => default_params E source medium omega
    | some p => p
  let guess :=
    match guess with
    | none => source.mulq 0
    | some g => g
  let kw2 : Kwargs := ⟨some 0, kw.restart, some 1, kw.solve_method⟩
  let min_sos := minSoundSpeed medium
  let step := fun (g : OnGrid) =>
    let g2 := (helmholtz_solver E medium omega source (some g) "gmres" true (some params) kw2).getD g
    let residual := (E.helmholtz g2 medium omega params).sub source
    (g2, E.norm residual.values)
  let out := verboseLoop tol maxiter step guess residual_magnitude 0
  ((((OnGrid.mulc ⟨0, -omega⟩ out.1).mulo src_magn).mulq 2).divq
    (source.domain.dx0 * min_sos))

/-! ## The Rayleigh integral (lines 15-80)

The kernel is transcendental, so this part of the embedding works over the
genuine real and complex numbers.  `jax.jvp` is embedded by dual numbers: a
`(primal, tangent)` pair is pushed through exactly the primitives the traced
function `exp_term` applies, each primitive paired with its forward-mode
derivative rule. -/

/-- A real dual number: primal value and forward-mode tangent. -/
structure DualR where
  val : ℝ
  tan : ℝ

/-- A complex dual number: primal value and forward-mode tangent. -/
structure DualC where
  val : ℂ
  tan : ℂ

/-- Forward-mode rule for `x ** 2`. -/
def dsq (a : DualR) : DualR := ⟨a.val ^ 2, 2 * a.val * a.tan⟩

/-- Forward-mode rule for addition. -/
def dadd (a b : DualR) : DualR := ⟨a.val + b.val, a.tan + b.tan⟩

/-- Forward-mode rule for `jnp.sqrt`. -/
noncomputable def dsqrt (a : DualR) : DualR :=
  ⟨Real.sqrt a.val, a.tan / (2 * Real.sqrt a.val)⟩

/-- Promotion of a real dual to a complex dual (the implicit real-to-complex
cast when `1j * k` meets the real array `r`). -/
noncomputable def toC (a : DualR) : DualC := ⟨(a.val : ℂ), (a.tan : ℂ)⟩

/-- Forward-mode rule for multiplication by the complex constant `c`. -/
def dconstMul (c : ℂ) (a : DualC) : DualC := ⟨c * a.val, c * a.tan⟩

/-- Forward-mode rule for `jnp.exp` on complex duals. -/
noncomputable def dcexp (a : DualC) : DualC :=
  ⟨Complex.exp a.val, a.tan * Complex.exp a.val⟩

/-- Forward-mode rule for division of duals (quotient rule). -/
noncomputable def ddiv (a b : DualC) : DualC :=
  ⟨a.val / b.val, (a.tan * b.val - a.val * b.tan) / b.val ^ 2⟩

/-- Lines 50-55 traced with dual numbers: `exp_term(x, y, z)` computes
`r = sqrt(x**2 + y**2 + z**2)` and returns `exp(1j*k*r)/r`. -/
noncomputable def exp_termD (k : ℝ) (x y z : DualR) : DualC :=
  let r := dsqrt (dadd (dadd (dsq x) (dsq y)) (dsq z))
  ddiv (dcexp (dconstMul (Complex.I * (k : ℂ)) (toC r))) (toC r)

/-- The primal value of the kernel: the Green's function
`exp(1j*k*r)/r` itself. -/
noncomputable def exp_term (k x y z : ℝ) : ℂ := (exp_termD k ⟨x, 0⟩ ⟨y, 0⟩ ⟨z, 0⟩).val

/-- Lines 57-63: `direc_exp_term(x, y, z)` is the second component of
`jax.jvp(exp_term, (x, y, z), (0., 0., 1.))` - the directional derivative of
the kernel along `(0, 0, 1)`. -/
noncomputable def direc_exp_term (k x y z : ℝ) : ℂ :=
  (exp_termD k ⟨x, 0⟩ ⟨y, 0⟩ ⟨z, 1⟩).tan

/-- The domain metadata of a `FourierSeries` pressure plane that
`rayleigh_integral` reads: the per-cell quadrature weight
(`domain.cell_volume`) and the flattened list of 2-D grid coordinates
(`domain.grid`). -/
structure RDomain where
  cell_volume : ℝ
  grid : List (ℝ × ℝ)

/-- A `FourierSeries` pressure field: the dimensionality of its domain, the
domain metadata, and the flattened list of its samples (`pressure.on_grid`),
enumerated in the same order as `domain.grid`. -/
structure PField where
  ndim : ℕ
  domain : RDomain
  on_grid : List ℂ

/-- Lines 15-80: `rayleigh_integral`.  The two validation checks run before
any numerical work; a failing check is the `ValueError` / `AssertionError`
(`Except.error`).  The 2-D grid gets a zero third coordinate appended, the
componentwise distance `R = |r - grid_point|` feeds the vmapped dipole
kernel, and the weighted samples are summed and scaled by the cell
volume. -/
noncomputable def rayleigh_integral (pressure : PField) (r : List ℝ) (f0 : ℝ)
    (sound_speed : ℝ) : Except String ℂ :=
  if pressure.ndim ≠ 2 then
    .error "Only 2D domains are supported."
  else
    match r with
    | [rx, ry, rz] =>
      let k := 2 * Real.pi * f0 / sound_speed
      let area := pressure.domain.cell_volume
      let weights := pressure.domain.grid.map fun g =>
        direc_exp_term k |rx - g.1| |ry - g.2| |rz - 0|
      .ok ((List.zipWith (fun w p => w * p) weights pressure.on_grid).sum * area)
    | _ => .error "The target position must be a 3D vector."

/-! ## Helper lemmas -/

/-- Scaling the zero field by `2 / q` (nonzero `q`) leaves it zero. -/
theorem zeroField_mulq_two_divq (dom : Grid) (n : ℕ) (q : ℚ) (hq : q ≠ 0) :
    ((zeroField dom n).mulq 2).divq q = zeroField dom n := by
  simp [zeroField, OnGrid.mulq, OnGrid.divq, CxN.mulq, CxN.divq, hq,
    List.map_replicate]

/-- `zero_field * 0 = zero_field`. -/
theorem zeroField_mulq_zero (dom : Grid) (n : ℕ) :
    (zeroField dom n).mulq 0 = zeroField dom n := by
  simp [zeroField, OnGrid.mulq, CxN.mulq, List.map_replicate]

/-- A constant multiple of the zero field is the zero field. -/
theorem mulc_zeroField (c : Cx) (dom : Grid) (n : ℕ) :
    OnGrid.mulc c (zeroField dom n) = zeroField dom n := by
  simp [zeroField, OnGrid.mulc, CxN.mulc, Cx.mul, List.map_replicate]

/-- A map whose function is constant on the list's members is a
`replicate`. -/
theorem map_eq_replicate {α β : Type} (l : List α) (f : α → β) (c : β)
    (h : ∀ x ∈ l, f x = c) : l.map f = List.replicate l.length c := by
  induction l with
  | nil => simp
  | cons a t ih =>
    simp [List.replicate_succ, h a (List.mem_cons_self a t),
      ih fun x hx => h x (List.mem_cons_of_mem _ hx)]

/-- On a list of finite samples, `(l * 2 / q) * 0` is the all-zero list
(nonzero `q`). -/
theorem map_scaled_zero (l : List CxN) (q : ℚ) (hq : q ≠ 0)
    (h : ∀ x ∈ l, x ≠ none) :
    ((l.map (CxN.mulq · 2)).map (CxN.divq · q)).map (CxN.mulq · 0)
      = List.replicate l.length (some ⟨0, 0⟩) := by
  rw [List.map_map, List.map_map]
  refine map_eq_replicate l _ _ fun x hx => ?_
  obtain ⟨v, rfl⟩ : ∃ v, x = some v := Option.ne_none_iff_exists'.mp (h x hx)
  simp [Function.comp, CxN.mulq, CxN.divq, hq]

/-- The bounded-iteration invariant of `verboseLoop`: started below the
budget, the final iteration counter never exceeds `maxiter`. -/
theorem verboseLoop_le_aux (tol : ℚ) (maxiter : ℕ)
    (step : OnGrid → OnGrid × Option ℚ) :
    ∀ (fuel i : ℕ) (g : OnGrid) (res : Option ℚ), maxiter - i ≤ fuel →
      i ≤ maxiter → (verboseLoop tol maxiter step g res i).2.2 ≤ maxiter := by
  intro fuel
  induction fuel with
  | zero =>
    intro i g res hf hi
    have hni : ¬ i < maxiter := by omega
    unfold verboseLoop
    rw [dif_neg fun hc => hni hc.2]
    exact hi
  | succ m ih =>
    intro i g res hf hi
    unfold verboseLoop
    split
    next h =>
      obtain ⟨-, h2⟩ := h
      exact ih (i + 1) _ _ (by omega) (by omega)
    next h => exact hi

/-! ## The claims -/

/-- **C3**: when the caller supplies no operator parameters,
`helmholtz_solver` behaves exactly as if it had been given
`default_params(source, medium, angular_frequency)` computed from the source
field the caller passed in; the parameters are computed once and the single
resulting value is the one closed over by the operator used in every Krylov
evaluation. -/
theorem helmholtz_solver_default_params {P : Type} (E : Collab P)
    (medium : Medium) (omega : ℚ) (source : OnGrid) (guess : Option OnGrid)
    (method : String) (checkpoint : Bool) (kw : Kwargs) :
    helmholtz_solver E medium omega source guess method checkpoint none kw
      = helmholtz_solver E medium omega source guess method checkpoint
          (some (default_params E source medium omega)) kw := rfl

/-- **C5**: the `while` loop of `helmholtz_solver_verbose` performs at most
`max_iterations` micro-steps - for every tolerance, every micro-step
function (hence every source and medium) and every starting residual - and
then terminates, returning a result (`verboseLoop` is a total function whose
final iteration counter bounds the number of micro-steps performed). -/
theorem verboseLoop_iterations_le (tol : ℚ) (maxiter : ℕ)
    (step : OnGrid → OnGrid × Option ℚ) (guess : OnGrid) (res : Option ℚ) :
    (verboseLoop tol maxiter step guess res 0).2.2 ≤ maxiter :=
  verboseLoop_le_aux tol maxiter step maxiter 0 guess res (by omega) (by omega)

/-- **C4**: `rayleigh_integral` reports a validation error - before any
numerical work, since both checks precede the numerics - whenever the
pressure field's domain is not 2-dimensional or the target point does not
have exactly 3 components. -/
theorem rayleigh_integral_validation (p : PField) (r : List ℝ) (f0 c : ℝ)
    (h : p.ndim ≠ 2 ∨ r.length ≠ 3) :
    ∃ e, rayleigh_integral p r f0 c = Except.error e := by
  rcases h with h | h
  · exact ⟨"Only 2D domains are supported.", by simp [rayleigh_integral, h]⟩
  · by_cases h2 : p.ndim = 2
    · rcases r with _ | ⟨a, _ | ⟨b, _ | ⟨c3, _ | ⟨d, rest⟩⟩⟩⟩
      · exact ⟨"The target position must be a 3D vector.",
          by simp [rayleigh_integral, h2]⟩
      · exact ⟨"The target position must be a 3D vector.",
          by simp [rayleigh_integral, h2]⟩
      · exact ⟨"The target position must be a 3D vector.",
          by simp [rayleigh_integral, h2]⟩
      · simp at h
      · exact ⟨"The target position must be a 3D vector.",
          by simp [rayleigh_integral, h2]⟩
    · exact ⟨"Only 2D domains are supported.", by simp [rayleigh_integral, h2]⟩

/-- A pressure field on a 3-dimensional domain (invalid for the Rayleigh
integral). -/
noncomputable def pw3 : PField := ⟨3, ⟨1, []⟩, []⟩

/-- A valid 2-dimensional pressure field with a single grid cell. -/
noncomputable def pw2 : PField := ⟨2, ⟨1, [(0, 0)]⟩, [1]⟩

/-- Witness for **C4**: a 3-D pressure field fails the dimensionality check,
and a 2-component target point fails the shape check. -/
theorem rayleigh_integral_validation_witness :
    ((pw3.ndim ≠ 2 ∨ ([(0 : ℝ), 0, 0]).length ≠ 3) ∧
      ∃ e, rayleigh_integral pw3 [0, 0, 0] 0 0 = Except.error e) ∧
    ((pw2.ndim ≠ 2 ∨ ([(0 : ℝ), 0]).length ≠ 3) ∧
      ∃ e, rayleigh_integral pw2 [0, 0] 0 0 = Except.error e) :=
  ⟨⟨Or.inl (by simp [pw3]),
      rayleigh_integral_validation pw3 [0, 0, 0] 0 0 (Or.inl (by simp [pw3]))⟩,
    ⟨Or.inr (by simp),
      rayleigh_integral_validation pw2 [0, 0] 0 0 (Or.inr (by simp))⟩⟩

/-- **C7**: for every medium and angular frequency (with the physically
positive `dx * min_sound_speed` nonzero, per the spec's medium invariant),
`helmholtz_solver` applied to an all-zero source with a zero initial guess
returns the all-zero pressure field.  The Krylov collaborator is assumed to
return the initial guess unchanged when the right-hand side and the guess
are both zero (a zero-residual start terminates GMRES immediately). -/
theorem helmholtz_solver_zero_source {P : Type} (E : Collab P)
    (medium : Medium) (omega : ℚ) (dom : Grid) (n : ℕ) (checkpoint : Bool)
    (params : Option P) (kw : Kwargs)
    (hq : dom.dx0 * minSoundSpeed medium ≠ 0)
    (hg : E.gmres
        (fun u => E.helmholtz u medium omega (params.getD (E.dp dom medium omega)))
        (zeroField dom n) (zeroField dom n) (kw.tol.getD (1 / 1000))
        (kw.restart.getD 10) (kw.maxiter.getD 1000)
        (kw.solve_method.getD "batched") = zeroField dom n) :
    helmholtz_solver E medium omega (zeroField dom n) none "gmres" checkpoint
      params kw = some (zeroField dom n) := by
  have hsc : ((zeroField dom n).mulq 2).divq
      (dom.dx0 * minSoundSpeed medium) = zeroField dom n :=
    zeroField_mulq_two_divq dom n _ hq
  have hdom : (zeroField dom n).domain = dom := rfl
  cases params with
  | none =>
    simp only [Option.getD_none] at hg
    simp only [helmholtz_solver, hsc, zeroField_mulq_zero, checkpointF,
      ite_self, default_params, hdom]
    rw [if_pos trivial, hg, mulc_zeroField]
  | some p =>
    simp only [Option.getD_some] at hg
    simp only [helmholtz_solver, hsc, zeroField_mulq_zero, checkpointF,
      ite_self, hdom]
    rw [if_pos trivial, hg, mulc_zeroField]

/-- A concrete collaborator pack whose `gmres` returns the initial guess
(the behavior of a Krylov solve that starts at zero residual). -/
def collabGuess : Collab Unit :=
  ⟨fun u _ _ _ => u, fun _ _ _ => (), fun _ _ g _ _ _ _ => g, fun _ _ g _ _ => g,
    fun _ => some 0⟩

/-- A homogeneous medium with sound speed 1. -/
def medOne : Medium := ⟨.scalar 1⟩

/-- Witness for **C7**: a unit-spacing domain with one sample, a homogeneous
medium, frequency 1. -/
theorem helmholtz_solver_zero_source_witness :
    ((⟨1⟩ : Grid).dx0 * minSoundSpeed medOne ≠ 0) ∧
    (collabGuess.gmres
        (fun u => collabGuess.helmholtz u medOne 1
          ((none : Option Unit).getD (collabGuess.dp ⟨1⟩ medOne 1)))
        (zeroField ⟨1⟩ 1) (zeroField ⟨1⟩ 1) (kwNone.tol.getD (1 / 1000))
        (kwNone.restart.getD 10) (kwNone.maxiter.getD 1000)
        (kwNone.solve_method.getD "batched") = zeroField ⟨1⟩ 1) ∧
    helmholtz_solver collabGuess medOne 1 (zeroField ⟨1⟩ 1) none "gmres" true
      none kwNone = some (zeroField ⟨1⟩ 1) :=
  ⟨by simp [minSoundSpeed, medOne], rfl,
    helmholtz_solver_zero_source collabGuess medOne 1 ⟨1⟩ 1 true none kwNone
      (by simp [minSoundSpeed, medOne]) rfl⟩

/-- **C1**: for every medium, angular frequency and source of finite samples
(and physically positive `dx * min_sound_speed`), `helmholtz_solver` scales
the source to `source * 2 / (dx * min_sound_speed)` with `min_sound_speed`
the `amin`-reduction of a spatially varying sound speed (or the scalar
itself), hands the scaled source to the selected Krylov method - `gmres` or
`bicgstab` - with the zero field as starting guess when none is supplied,
and returns `-1j * omega` times the solver's output. -/
theorem helmholtz_solver_pipeline {P : Type} (E : Collab P) (medium : Medium)
    (omega : ℚ) (source : OnGrid) (checkpoint : Bool) (params : Option P)
    (kw : Kwargs)
    (hdef : ∀ x ∈ source.values, x ≠ none)
    (hpos : source.domain.dx0 * minSoundSpeed medium ≠ 0) :
    helmholtz_solver E medium omega source none "gmres" checkpoint params kw
      = some (OnGrid.mulc ⟨0, -omega⟩
          (E.gmres
            (fun u => E.helmholtz u medium omega
              (params.getD (default_params E source medium omega)))
            ((source.mulq 2).divq (source.domain.dx0 * minSoundSpeed medium))
            (zeroField source.domain source.values.length)
            (kw.tol.getD (1 / 1000)) (kw.restart.getD 10)
            (kw.maxiter.getD 1000) (kw.solve_method.getD "batched"))) ∧
    helmholtz_solver E medium omega source none "bicgstab" checkpoint params kw
      = some (OnGrid.mulc ⟨0, -omega⟩
          (E.bicgstab
            (fun u => E.helmholtz u medium omega
              (params.getD (default_params E source medium omega)))
            ((source.mulq 2).divq (source.domain.dx0 * minSoundSpeed medium))
            (zeroField source.domain source.values.length)
            (kw.tol.getD (1 / 1000)) (kw.maxiter.getD 1000))) := by
  have hguess : (((source.mulq 2).divq
        (source.domain.dx0 * minSoundSpeed medium)).mulq 0)
      = zeroField source.domain source.values.length := by
    simp only [OnGrid.mulq, OnGrid.divq]
    rw [map_scaled_zero source.values _ hpos hdef]
    rfl
  have hdom2 : ((source.mulq 2).divq
      (source.domain.dx0 * minSoundSpeed medium)).domain = source.domain := rfl
  cases params with
  | none =>
    refine ⟨?_, ?_⟩ <;>
      simp only [helmholtz_solver, checkpointF, ite_self, hguess, hdom2,
        default_params, Option.getD_none]
    · rw [if_pos trivial]
    · rw [if_neg (by decide), if_pos trivial]
  | some p =>
    refine ⟨?_, ?_⟩ <;>
      simp only [helmholtz_solver, checkpointF, ite_self, hguess, hdom2,
        Option.getD_some]
    · rw [if_pos trivial]
    · rw [if_neg (by decide), if_pos trivial]

/-- A one-sample source field of value `1 + 0j` on a unit-spacing domain. -/
def srcOne : OnGrid := ⟨⟨1⟩, [some ⟨1, 0⟩]⟩

/-- Witness for **C1**: concrete collaborators, medium, and source. -/
theorem helmholtz_solver_pipeline_witness :
    (∀ x ∈ srcOne.values, x ≠ none) ∧
    (srcOne.domain.dx0 * minSoundSpeed medOne ≠ 0) ∧
    (helmholtz_solver collabGuess medOne 1 srcOne none "gmres" true none kwNone
      = some (OnGrid.mulc ⟨0, -1⟩
          (collabGuess.gmres
            (fun u => collabGuess.helmholtz u medOne 1
              ((none : Option Unit).getD (default_params collabGuess srcOne medOne 1)))
            ((srcOne.mulq 2).divq (srcOne.domain.dx0 * minSoundSpeed medOne))
            (zeroField srcOne.domain srcOne.values.length)
            (kwNone.tol.getD (1 / 1000)) (kwNone.restart.getD 10)
            (kwNone.maxiter.getD 1000) (kwNone.solve_method.getD "batched"))) ∧
      helmholtz_solver collabGuess medOne 1 srcOne none "bicgstab" true none kwNone
      = some (OnGrid.mulc ⟨0, -1⟩
          (collabGuess.bicgstab
            (fun u => collabGuess.helmholtz u medOne 1
              ((none : Option Unit).getD (default_params collabGuess srcOne medOne 1)))
            ((srcOne.mulq 2).divq (srcOne.domain.dx0 * minSoundSpeed medOne))
            (zeroField srcOne.domain srcOne.values.length)
            (kwNone.tol.getD (1 / 1000)) (kwNone.maxiter.getD 1000)))) :=
  ⟨by decide, by simp [srcOne, minSoundSpeed, medOne],
    helmholtz_solver_pipeline collabGuess medOne 1 srcOne true none kwNone
      (by decide) (by simp [srcOne, minSoundSpeed, medOne])⟩

/-- Pre-scaling commutes with a constant complex factor on the source:
`(α·f) * q / d = α · (f * q / d)` samplewise. -/
theorem mulc_scaled_comm (α : Cx) (f : OnGrid) (q d : ℚ) :
    ((OnGrid.mulc α f).mulq q).divq d = OnGrid.mulc α ((f.mulq q).divq d) := by
  simp only [OnGrid.mulc, OnGrid.mulq, OnGrid.divq, List.map_map]
  refine congrArg (OnGrid.mk f.domain) (List.map_congr_left fun x _ => ?_)
  cases x with
  | none => by_cases hd : d = 0 <;> simp [Function.comp, CxN.mulc, CxN.mulq, CxN.divq, hd]
  | some v =>
    by_cases hd : d = 0 <;>
      simp [Function.comp, CxN.mulc, CxN.mulq, CxN.divq, Cx.mul, hd] <;>
    constructor <;> ring

/-- Constant complex factors on a field commute with each other. -/
theorem mulc_mulc_comm (c α : Cx) (f : OnGrid) :
    OnGrid.mulc c (OnGrid.mulc α f) = OnGrid.mulc α (OnGrid.mulc c f) := by
  simp only [OnGrid.mulc, List.map_map]
  refine congrArg (OnGrid.mk f.domain) (List.map_congr_left fun x _ => ?_)
  cases x with
  | none => rfl
  | some v => simp [Function.comp, CxN.mulc, Cx.mul_left_comm]

/-- **C6**: with medium, frequency and precomputed operator parameters
fixed, the initial guess fixed to the zero field, and a nonzero complex
scalar `α`, `helmholtz_solver` applied to `α · source` returns `α` times its
result on `source`.  (Exact arithmetic stands in for "within solver
tolerance"; the Krylov collaborator is assumed to scale equivariantly with
its right-hand side, which is the linearity of the discretized Helmholtz
operator that the spec invokes.) -/
theorem helmholtz_solver_scaling {P : Type} (E : Collab P) (medium : Medium)
    (omega : ℚ) (source : OnGrid) (p : P) (α : Cx) (checkpoint : Bool)
    (kw : Kwargs)
    (hα : α ≠ ⟨0, 0⟩)
    (hg : E.gmres (fun u => E.helmholtz u medium omega p)
        (OnGrid.mulc α
          ((source.mulq 2).divq (source.domain.dx0 * minSoundSpeed medium)))
        (zeroField source.domain source.values.length)
        (kw.tol.getD (1 / 1000)) (kw.restart.getD 10) (kw.maxiter.getD 1000)
        (kw.solve_method.getD "batched")
      = OnGrid.mulc α (E.gmres (fun u => E.helmholtz u medium omega p)
          ((source.mulq 2).divq (source.domain.dx0 * minSoundSpeed medium))
          (zeroField source.domain source.values.length)
          (kw.tol.getD (1 / 1000)) (kw.restart.getD 10) (kw.maxiter.getD 1000)
          (kw.solve_method.getD "batched"))) :
    helmholtz_solver E medium omega (OnGrid.mulc α source)
        (some (zeroField source.domain source.values.length)) "gmres"
        checkpoint (some p) kw
      = Option.map (OnGrid.mulc α)
          (helmholtz_solver E medium omega source
            (some (zeroField source.domain source.values.length)) "gmres"
            checkpoint (some p) kw) := by
  have hd : (OnGrid.mulc α source).domain = source.domain := rfl
  simp only [helmholtz_solver, checkpointF, ite_self, hd]
  rw [if_pos trivial, if_pos trivial, mulc_scaled_comm, hg]
  simp only [Option.map_some']
  rw [mulc_mulc_comm]

/-- A collaborator pack whose `gmres` returns the right-hand side. -/
def collabRhs : Collab Unit :=
  ⟨fun u _ _ _ => u, fun _ _ _ => (), fun _ b _ _ _ _ _ => b,
    fun _ b _ _ _ => b, fun _ => some 0⟩

/-- Witness for **C6**: `α = 1j`, a one-sample source. -/
theorem helmholtz_solver_scaling_witness :
    ((⟨0, 1⟩ : Cx) ≠ ⟨0, 0⟩) ∧
    (collabRhs.gmres (fun u => collabRhs.helmholtz u medOne 1 ())
        (OnGrid.mulc ⟨0, 1⟩
          ((srcOne.mulq 2).divq (srcOne.domain.dx0 * minSoundSpeed medOne)))
        (zeroField srcOne.domain srcOne.values.length)
        (kwNone.tol.getD (1 / 1000)) (kwNone.restart.getD 10)
        (kwNone.maxiter.getD 1000) (kwNone.solve_method.getD "batched")
      = OnGrid.mulc ⟨0, 1⟩ (collabRhs.gmres
          (fun u => collabRhs.helmholtz u medOne 1 ())
          ((srcOne.mulq 2).divq (srcOne.domain.dx0 * minSoundSpeed medOne))
          (zeroField srcOne.domain srcOne.values.length)
          (kwNone.tol.getD (1 / 1000)) (kwNone.restart.getD 10)
          (kwNone.maxiter.getD 1000) (kwNone.solve_method.getD "batched"))) ∧
    helmholtz_solver collabRhs medOne 1 (OnGrid.mulc ⟨0, 1⟩ srcOne)
        (some (zeroField srcOne.domain srcOne.values.length)) "gmres" true
        (some ()) kwNone
      = Option.map (OnGrid.mulc ⟨0, 1⟩)
          (helmholtz_solver collabRhs medOne 1 srcOne
            (some (zeroField srcOne.domain srcOne.values.length)) "gmres" true
            (some ()) kwNone) :=
  ⟨by simp, rfl,
    helmholtz_solver_scaling collabRhs medOne 1 srcOne () ⟨0, 1⟩ true kwNone
      (by simp) rfl⟩

/-- A loop whose starting residual is already invalid (NaN) never runs: the
IEEE comparison `NaN > tol` is false. -/
theorem verboseLoop_invalid_res (tol : ℚ) (maxiter : ℕ)
    (step : OnGrid → OnGrid × Option ℚ) (g : OnGrid) (i : ℕ) :
    verboseLoop tol maxiter step g none i = (g, none, i) := by
  unfold verboseLoop
  rw [dif_neg]
  rintro ⟨hc, -⟩
  simp [gtO] at hc

/-- **C10**: on an all-zero source field, `helmholtz_solver_verbose` divides
the source by its Euclidean norm, which is zero; the division is unguarded,
so the normalized source is the all-invalid (NaN) field rather than the zero
field, and - with the default zero-times-source initial guess - the returned
field consists entirely of invalid values.  (The norm collaborator is
assumed to map the zero field to `0` and a field containing an invalid
sample to an invalid norm, as `jnp.linalg.norm` does.)  A nonzero source
norm is thus an unstated precondition of the verbose driver, in contrast to
`helmholtz_solver`, which maps a zero source to the zero field. -/
theorem helmholtz_solver_verbose_zero_source_nan {P : Type} (E : Collab P)
    (medium : Medium) (omega : ℚ) (dom : Grid) (n : ℕ) (params : Option P)
    (kw : Kwargs)
    (hn0 : E.norm (List.replicate n (some ⟨0, 0⟩)) = some 0)
    (hnan : E.norm (E.helmholtz ⟨dom, List.replicate n none⟩ medium omega
        (E.dp dom medium omega)).values = none) :
    ((zeroField dom n).divo (E.norm (zeroField dom n).values)).values
        = List.replicate n none ∧
    (helmholtz_solver_verbose E medium omega (zeroField dom n) none params
        kw).values = List.replicate n none := by
  have hnorm : ((zeroField dom n).divo (E.norm (zeroField dom n).values))
      = (⟨dom, List.replicate n none⟩ : OnGrid) := by
    show (zeroField dom n).divo (E.norm (List.replicate n (some ⟨0, 0⟩))) = _
    rw [hn0]
    simp [OnGrid.divo, OnGrid.divq, zeroField, CxN.divq, List.map_replicate]
  refine ⟨by rw [hnorm], ?_⟩
  simp only [helmholtz_solver_verbose]
  rw [show E.norm (zeroField dom n).values
      = E.norm (List.replicate n (some ⟨0, 0⟩)) from rfl, hn0]
  rw [show (zeroField dom n).divo (some 0) = (⟨dom, List.replicate n none⟩ : OnGrid) by
    have := hnorm
    rwa [show E.norm (zeroField dom n).values
      = E.norm (List.replicate n (some ⟨0, 0⟩)) from rfl, hn0] at this]
  rw [show default_params E (⟨dom, List.replicate n none⟩ : OnGrid) medium omega
      = E.dp dom medium omega from rfl]
  rw [hnan]
  rw [show (⟨dom, List.replicate n none⟩ : OnGrid).mulq 0
      = (⟨dom, List.replicate n none⟩ : OnGrid) by
    simp [OnGrid.mulq, CxN.mulq, List.map_replicate]]
  rw [verboseLoop_invalid_res]
  simp [OnGrid.mulc, OnGrid.mulo, OnGrid.mulq, OnGrid.divq, CxN.mulc,
    CxN.mulq, CxN.divq, List.map_replicate]

/-- A collaborator pack whose norm is zero on finite input and invalid on
input containing an invalid sample. -/
def collabNan : Collab Unit :=
  ⟨fun u _ _ _ => u, fun _ _ _ => (), fun _ _ g _ _ _ _ => g,
    fun _ _ g _ _ => g, fun l => if none ∈ l then none else some 0⟩

/-- Witness for **C10**: one sample, unit domain, homogeneous medium. -/
theorem helmholtz_solver_verbose_zero_source_nan_witness :
    (collabNan.norm (List.replicate 1 (some ⟨0, 0⟩)) = some 0) ∧
    (collabNan.norm (collabNan.helmholtz ⟨⟨1⟩, List.replicate 1 none⟩ medOne 1
        (collabNan.dp ⟨1⟩ medOne 1)).values = none) ∧
    (((zeroField ⟨1⟩ 1).divo (collabNan.norm (zeroField ⟨1⟩ 1).values)).values
        = List.replicate 1 none ∧
      (helmholtz_solver_verbose collabNan medOne 1 (zeroField ⟨1⟩ 1) none none
        kwNone).values = List.replicate 1 none) :=
  ⟨by decide, by decide,
    helmholtz_solver_verbose_zero_source_nan collabNan medOne 1 ⟨1⟩ 1 none
      kwNone (by decide) (by decide)⟩

/-- **C8**: wherever `r = sqrt(x² + y² + z²)` is nonzero, the dipole kernel
that `rayleigh_integral` builds by forward-mode differentiation of
`G(x,y,z) = exp(i k r)/r` in direction `(0, 0, 1)` equals the closed form
`exp(i k r)/r² · (i k r − 1) · (z/r)`. -/
theorem direc_exp_term_closed_form (k x y z : ℝ)
    (hr : Real.sqrt (x ^ 2 + y ^ 2 + z ^ 2) ≠ 0) :
    direc_exp_term k x y z
      = Complex.exp (Complex.I * (k : ℂ) * (Real.sqrt (x ^ 2 + y ^ 2 + z ^ 2) : ℂ))
          / (Real.sqrt (x ^ 2 + y ^ 2 + z ^ 2) : ℂ) ^ 2
        * (Complex.I * (k : ℂ) * (Real.sqrt (x ^ 2 + y ^ 2 + z ^ 2) : ℂ) - 1)
        * ((z : ℂ) / (Real.sqrt (x ^ 2 + y ^ 2 + z ^ 2) : ℂ)) := by
  have hrc : (Real.sqrt (x ^ 2 + y ^ 2 + z ^ 2) : ℂ) ≠ 0 :=
    Complex.ofReal_ne_zero.mpr hr
  simp only [direc_exp_term, exp_termD, dsq, dadd, dsqrt, toC, dconstMul,
    dcexp, ddiv]
  push_cast
  field_simp
  ring

/-- Witness for **C8**: the point `(0, 0, 1)` at wavenumber 1, where
`r = sqrt(0² + 0² + 1²) = 1` is nonzero. -/
theorem direc_exp_term_closed_form_witness :
    (Real.sqrt ((0 : ℝ) ^ 2 + (0 : ℝ) ^ 2 + (1 : ℝ) ^ 2) ≠ 0) ∧
    direc_exp_term 1 0 0 1
      = Complex.exp (Complex.I * ((1 : ℝ) : ℂ)
            * (Real.sqrt ((0 : ℝ) ^ 2 + (0 : ℝ) ^ 2 + (1 : ℝ) ^ 2) : ℂ))
          / (Real.sqrt ((0 : ℝ) ^ 2 + (0 : ℝ) ^ 2 + (1 : ℝ) ^ 2) : ℂ) ^ 2
        * (Complex.I * ((1 : ℝ) : ℂ)
            * (Real.sqrt ((0 : ℝ) ^ 2 + (0 : ℝ) ^ 2 + (1 : ℝ) ^ 2) : ℂ) - 1)
        * (((1 : ℝ) : ℂ) / (Real.sqrt ((0 : ℝ) ^ 2 + (0 : ℝ) ^ 2 + (1 : ℝ) ^ 2) : ℂ)) :=
  ⟨by simp [Real.sqrt_one], direc_exp_term_closed_form 1 0 0 1 (by simp [Real.sqrt_one])⟩

/-- Sum of a `zipWith` as an indexed sum over the common length. -/
theorem zipWith_sum_eq {α β γ : Type} [AddCommMonoid γ] (f : α → β → γ)
    (da : α) (db : β) :
    ∀ (a : List α) (b : List β),
      (List.zipWith f a b).sum
        = ∑ i ∈ Finset.range (min a.length b.length),
            f (a.getD i da) (b.getD i db) := by
  intro a
  induction a with
  | nil => intro b; simp
  | cons x t ih =>
    intro b
    cases b with
    | nil => simp
    | cons y s =>
      simp only [List.zipWith_cons_cons, List.sum_cons, List.length_cons]
      rw [ih s, Nat.succ_min_succ, Finset.sum_range_succ']
      simp only [List.getD_cons_succ, List.getD_cons_zero]
      exact add_comm _ _

/-- **C2**: on a 2-D pressure field and a 3-component target point,
`rayleigh_integral` returns the cell-volume-weighted sum, over all
source-plane grid cells, of the forward-mode dipole kernel evaluated at the
componentwise absolute difference between the target point and the grid
point with a zero third coordinate appended, times the pressure sample of
that cell, with wavenumber `k = 2 π f0 / sound_speed`. -/
theorem rayleigh_integral_quadrature (p : PField) (hp : p.ndim = 2)
    (rx ry rz f0 c : ℝ) :
    rayleigh_integral p [rx, ry, rz] f0 c
      = Except.ok
          ((∑ i ∈ Finset.range (min p.domain.grid.length p.on_grid.length),
              direc_exp_term (2 * Real.pi * f0 / c)
                  |rx - (p.domain.grid.getD i (0, 0)).1|
                  |ry - (p.domain.grid.getD i (0, 0)).2| |rz - 0|
                * p.on_grid.getD i 0)
            * p.domain.cell_volume) := by
  simp only [rayleigh_integral, hp, ne_eq, not_true_eq_false, if_false]
  rw [List.zipWith_map_left, zipWith_sum_eq _ (0, 0) 0]

/-- Witness for **C2**: the one-cell field `pw2` at target `(0,0,0)`. -/
theorem rayleigh_integral_quadrature_witness :
    pw2.ndim = 2 ∧
    rayleigh_integral pw2 [0, 0, 0] 0 1
      = Except.ok
          ((∑ i ∈ Finset.range (min pw2.domain.grid.length pw2.on_grid.length),
              direc_exp_term (2 * Real.pi * 0 / 1)
                  |0 - (pw2.domain.grid.getD i (0, 0)).1|
                  |0 - (pw2.domain.grid.getD i (0, 0)).2| |0 - 0|
                * pw2.on_grid.getD i 0)
            * pw2.domain.cell_volume) :=
  ⟨rfl, rayleigh_integral_quadrature pw2 rfl 0 0 0 0 1⟩

/-- **C9 (amended)**: `rayleigh_integral` cannot distinguish the two sides
of the source plane: the value at `(x, y, z)` equals the value at
`(x, y, -z)`, because the appended third grid coordinate is `0` and the
third component of `r - grid_point` passes through an absolute value before
the kernel is evaluated. -/
theorem rayleigh_integral_mirror_z (p : PField) (rx ry rz f0 c : ℝ) :
    rayleigh_integral p [rx, ry, rz] f0 c
      = rayleigh_integral p [rx, ry, -rz] f0 c := by
  simp only [rayleigh_integral, sub_zero, abs_neg]

/-- The dipole kernel at wavenumber 0 and offset `(0, 0, 1)` is `-1`. -/
theorem direc_eval_origin : direc_exp_term 0 0 0 1 = -1 := by
  norm_num [direc_exp_term, exp_termD, dsq, dadd, dsqrt, toC, dconstMul,
    dcexp, ddiv, Real.sqrt_one, Complex.exp_zero]

/-- The dipole kernel at wavenumber 0 and offset `(2, 0, 1)` is
`-1/(5·sqrt 5)`. -/
theorem direc_eval_far :
    direc_exp_term 0 2 0 1 = -((((Real.sqrt 5)⁻¹ : ℝ) : ℂ) / 5) := by
  have h5 : (2 : ℝ) ^ 2 + 0 ^ 2 + 1 ^ 2 = 5 := by norm_num
  have hs5 : Real.sqrt 5 ≠ 0 := by
    have : 0 < Real.sqrt 5 := Real.sqrt_pos.mpr (by norm_num)
    exact ne_of_gt this
  have hsq : ((Real.sqrt 5 : ℝ) : ℂ) ^ 2 = 5 := by
    rw [show ((Real.sqrt 5 : ℝ) : ℂ) ^ 2 = (((Real.sqrt 5) ^ 2 : ℝ) : ℂ) by push_cast; ring]
    rw [Real.sq_sqrt (by norm_num : (0 : ℝ) ≤ 5)]
    norm_num
  norm_num [direc_exp_term, exp_termD, dsq, dadd, dsqrt, toC, dconstMul,
    dcexp, ddiv, h5, hsq, Complex.exp_zero]
  have hc : ((Real.sqrt 5 : ℝ) : ℂ) ≠ 0 := Complex.ofReal_ne_zero.mpr hs5
  field_simp
  ring

/-- A one-cell pressure plane whose grid cell sits at `(1, 0)` (not at the
origin), with pressure `1` and cell volume `1`. -/
noncomputable def pcex : PField := ⟨2, ⟨1, [(1, 0)]⟩, [1]⟩

/-- Evaluating `pcex` at `(1, 0, 1)` with `f0 = 0` gives `-1`. -/
theorem rayleigh_cex_left :
    rayleigh_integral pcex [1, 0, 1] 0 1500 = Except.ok (-1) := by
  norm_num [rayleigh_integral, pcex, direc_eval_origin]

/-- Evaluating `pcex` at `(-1, 0, 1)` with `f0 = 0` gives `-1/(5·sqrt 5)`. -/
theorem rayleigh_cex_right :
    rayleigh_integral pcex [-1, 0, 1] 0 1500
      = Except.ok (-((((Real.sqrt 5)⁻¹ : ℝ) : ℂ) / 5)) := by
  norm_num [rayleigh_integral, pcex]
  rw [direc_eval_far]
  push_cast
  ring

/-- **C9 (counterexample)**: negating the *x* coordinate of the target point
changes the value of the Rayleigh integral - the componentwise absolute
value is taken of `r - grid_point`, not of `r`, so for a grid cell off the
axis the two sides see different distances.  Concretely, for a one-cell
plane with its cell at `(1, 0)`, the integral at `(1, 0, 1)` is `-1` while
at `(-1, 0, 1)` it is `-1/(5·sqrt 5)`. -/
theorem rayleigh_integral_mirror_x_cex :
    rayleigh_integral pcex [1, 0, 1] 0 1500
      ≠ rayleigh_integral pcex [-1, 0, 1] 0 1500 := by
  rw [rayleigh_cex_left, rayleigh_cex_right]
  intro h
  rw [Except.ok.injEq] at h
  have hre := congrArg Complex.re h
  simp at hre
  have hpos : 0 < Real.sqrt 5 := Real.sqrt_pos.mpr (by norm_num)
  have h5 : Real.sqrt 5 * Real.sqrt 5 = 5 := Real.mul_self_sqrt (by norm_num)
  have hinv : Real.sqrt 5 * (Real.sqrt 5)⁻¹ = 1 := mul_inv_cancel₀ (ne_of_gt hpos)
  nlinarith [hre, hpos, h5, hinv]
